import Mathlib

/-!
Verification development for the tiered log pipeline of the
`express-typescript-template` repository.

The embedding covers the in-process Entry Queue (`structs/queue.ts`), the
Redis Intermediate Buffer client (`redis.storage.ts`), the Prisma
Relational Sink writer (`prisma.storage.ts`) and the `Logger` orchestrator
(`logger.ts`).  Modelling conventions:

* JS `Date` timestamps are `Nat` ticks.
* JS metadata objects (`Record<string, any>`) are association lists of
  string keys and string values; a possibly absent (`undefined`) object is
  an `Option` of such a list.
* JSON serialization into Redis and parsing back is the identity.
* Network availability of Redis and of the database is a boolean flag on
  the corresponding state; an unavailable service makes the awaited call
  take its internal catch branch, exactly as in the source, where every
  storage method catches its own errors and returns a default value.
* Asynchronous calls are modelled as running to completion at their call
  site (single-threaded sequential semantics).
* `pushCalls` and `insertCalls` are ghost instrumentation counters that
  count invocations of the Redis push and of the Prisma batched insert;
  no source behaviour depends on them.
-/

/-- Log levels, from `ELogLevel` in `src/interfaces/logs.ts`. -/
inductive ELogLevel
  | Debug
  | Info
  | Warn
  | Error
deriving DecidableEq, Repr

/-- Modelled from the spec: the `ELogType` enum declaration file is not among
the provided sources; the spec describes it as `Request/Error/ConsoleOnly`
(`logType` determines routing) and its three variants `CONSOLE`, `REQUEST`
and `ERROR` are exactly the ones used by `logger.ts` and
`prisma.storage.ts`. -/
inductive ELogType
  | CONSOLE
  | REQUEST
  | ERROR
deriving DecidableEq, Repr

/-- A JS metadata object flattened to an association list; lookups take the
first matching key. -/
abbrev Metadata := List (String × String)

/-- Optional-chaining access `m?.key` on a possibly undefined metadata
object. -/
def mlookup (md : Option Metadata) (k : String) : Option String :=
  (md.getD []).lookup k

/-- Base log entry, from `ILogEntry` in `src/interfaces/logs.ts`:
level, message, creation timestamp and optional metadata. -/
structure ILogEntry where
  level : ELogLevel
  message : String
  timestamp : Nat
  metadata : Option Metadata
deriving DecidableEq, Repr

/-- Extended log entry, from `IExtendedLogEntry` in `logger.ts`: an
`ILogEntry` enriched with host name, process id, application name and the
log type. -/
structure IExtendedLogEntry extends ILogEntry where
  hostname : String
  pid : Nat
  appName : String
  logType : ELogType
deriving DecidableEq, Repr

namespace Queue

/-- `Queue.enqueue` from `structs/queue.ts`: adds an element at the tail.
The linked-list queue is modelled as a `List` whose head is the queue
front. -/
def enqueue (q : List α) (item : α) : List α := q ++ [item]

/-- `Queue.toArray`: all elements in queue order, front to back. -/
def toArray (q : List α) : List α := q

/-- `Queue.clear`: removes all elements. -/
def clear (_q : List α) : List α := []

/-- `Queue.isEmpty`. -/
def isEmpty (q : List α) : Bool := q.isEmpty

/-- `Queue.size`. -/
def size (q : List α) : Nat := q.length

end Queue

namespace RedisLogStorage

/-- `maxRetention` from `redis.storage.ts`: maximum number of logs kept in
the Redis backup list. -/
def maxRetention : Nat := 10000

/-- State of the Redis Intermediate Buffer as seen by the client.
`queueList` models the `app:logs:queue` list and `backupList` the
`app:logs:backup` list, both with index 0 at the head (the side `lPush`
prepends to).  `ok` is true when the connection is up, so that commands
succeed; when it is false every method takes its catch branch.
`pushCalls` is a ghost counter of `pushLogs` invocations. -/
structure RedisState where
  ok : Bool
  queueList : List IExtendedLogEntry
  backupList : List IExtendedLogEntry
  pushCalls : Nat
deriving DecidableEq, Repr

/-- One iteration of the `pushLogs` loop body: `lPush` the entry onto the
main list; for Error/Warn entries also `lPush` it onto the backup list and
`lTrim` that list to `maxRetention` entries. -/
def pushOne (r : RedisState) (log : IExtendedLogEntry) : RedisState :=
  let r1 := { r with queueList := log :: r.queueList }
  if log.level = ELogLevel.Error ∨ log.level = ELogLevel.Warn then
    { r1 with backupList := (log :: r1.backupList).take maxRetention }
  else r1

/-- `pushLogs` from `redis.storage.ts`: serialize and `lPush` every entry in
order inside one MULTI and return the number of logs pushed; on connection
failure catch the error, return 0 and leave the store unchanged — the
method never throws. -/
def pushLogs (r : RedisState) (logs : List IExtendedLogEntry) : Nat × RedisState :=
  let r := { r with pushCalls := r.pushCalls + 1 }
  if r.ok then
    (logs.length, logs.foldl pushOne r)
  else
    (0, r)

/-- The elements `lRange key (-n) (-1)` returns: the last `n` elements of
the list (all of them when `n` exceeds the length), in list order. -/
def lastN (l : List α) (n : Nat) : List α := l.drop (l.length - n)

/-- `getLogs` from `redis.storage.ts`: atomically `lRange key (-count) (-1)`
(the oldest `count` entries) and `lTrim key 0 (-count-1)` (drop them),
then reverse the batch into chronological order.  When `count = 0` the JS
negative start index `-0` collapses to `0`, so the whole list is read and
`lTrim 0 (-1)` trims nothing.  On connection failure catch the error and
return `[]` with the store unchanged — the method never throws. -/
def getLogs (r : RedisState) (count : Nat) : List IExtendedLogEntry × RedisState :=
  if r.ok then
    if count = 0 then
      (r.queueList.reverse, r)
    else
      ((lastN r.queueList count).reverse,
        { r with queueList := r.queueList.take (r.queueList.length - count) })
  else
    ([], r)

/-- `getLogCount` from `redis.storage.ts`: `lLen` of the main list, or 0 on
connection failure; the method never throws and reads without mutating. -/
def getLogCount (r : RedisState) : Nat :=
  if r.ok then r.queueList.length else 0

end RedisLogStorage

namespace PrismaLogStorage

/-- The `levelMap` table shared by both row mappers in `prisma.storage.ts`;
the `|| "INFO"` / `|| "ERROR"` fallbacks are unreachable because the map is
total on the four levels. -/
def levelMap : ELogLevel → String
  | ELogLevel.Debug => "DEBUG"
  | ELogLevel.Info => "INFO"
  | ELogLevel.Warn => "WARNING"
  | ELogLevel.Error => "ERROR"

/-- `log.environment || env.nodeEnv || "development"`: `log.environment` is
not a declared `ILogEntry` field, hence undefined; an empty environment
string is falsy and falls through to `"development"`. -/
def envOrDefault (nodeEnv : String) : String :=
  if nodeEnv = "" then "development" else nodeEnv

/-- Model of `JSON.stringify` on a metadata object. -/
def stringifyMeta (m : Metadata) : String :=
  String.join (m.map (fun p => p.1 ++ "=" ++ p.2 ++ ";"))

/-- A row of the request/access table, with the fields built by
`mapToRequestLogFormat`. -/
structure RequestRow where
  level : String
  message : String
  timestamp : Nat
  service : Option String
  environment : String
  request_id : Option String
  request_path : Option String
  request_method : Option String
  user_id : Option String
  status_code : Option String
  duration_ms : Option String
  context : Option String
deriving DecidableEq, Repr

/-- `mapToRequestLogFormat` from `prisma.storage.ts`.  Fields such as
`log.service`, `log.request_id`, ... are not declared on `ILogEntry`, so
the `||` chains reduce to the optional metadata lookups.  The source
expression `log.context || log.metadata ? JSON.stringify(log.metadata) :
null` parses as `(log.context || log.metadata) ? ... : null`; with
`log.context` undefined this is a stringify of the metadata when present,
else null. -/
def mapToRequestLogFormat (nodeEnv : String) (log : ILogEntry) : RequestRow :=
  { level := levelMap log.level
    message := log.message
    timestamp := log.timestamp
    service := mlookup log.metadata "service"
    environment := envOrDefault nodeEnv
    request_id := mlookup log.metadata "request_id"
    request_path := mlookup log.metadata "request_path"
    request_method := mlookup log.metadata "request_method"
    user_id := mlookup log.metadata "user_id"
    status_code := mlookup log.metadata "status_code"
    duration_ms := mlookup log.metadata "duration_ms"
    context := log.metadata.map stringifyMeta }

/-- A row of the error/application table, with the fields built by
`mapToErrorLogFormat`. -/
structure ErrorRow where
  level : String
  message : String
  timestamp : Nat
  error_name : Option String
  stack_trace : Option String
  service : Option String
  environment : String
  component : Option String
  request_id : Option String
  context : Option String
deriving DecidableEq, Repr

/-- `mapToErrorLogFormat` from `prisma.storage.ts`.  The nested
`log.metadata?.error` object is flattened into metadata keys `error.name`
and `error.stack`; `log.stack_trace` is not a declared `ILogEntry` field,
hence undefined. -/
def mapToErrorLogFormat (nodeEnv : String) (log : ILogEntry) : ErrorRow :=
  { level := levelMap log.level
    message := log.message
    timestamp := log.timestamp
    error_name := (mlookup log.metadata "error.name").or (mlookup log.metadata "errorName")
    stack_trace := mlookup log.metadata "error.stack"
    service := mlookup log.metadata "service"
    environment := envOrDefault nodeEnv
    component := mlookup log.metadata "component"
    request_id := mlookup log.metadata "request_id"
    context := log.metadata.map stringifyMeta }

/-- Prisma `createMany` with `skipDuplicates: true` over a table whose rows
are unique on `key`: append, in order, each row whose key collides neither
with an existing row nor with an earlier appended row of the same batch,
and return the number of rows newly created. -/
def createManySkipDup (key : α → String) (table : List α) : List α → Nat × List α
  | [] => (0, table)
  | row :: rows =>
    if (table.map key).contains (key row) then
      createManySkipDup key table rows
    else
      let res := createManySkipDup key (table ++ [row]) rows
      (res.1 + 1, res.2)

/-- State of the Prisma Relational Sink as seen by the writer.
`isConnected` is the health flag of `prisma.storage.ts`; `dbOk` is true
when the database is reachable so that a batched insert succeeds, and false
when the insert throws into the catch branch.  `keyReq` and `keyErr` model
the unique identifier of a row that `skipDuplicates` consults (the `@id`
column of the schema).  `insertCalls` is a ghost counter of attempted
batched inserts. -/
structure PrismaState where
  isConnected : Bool
  dbOk : Bool
  nodeEnv : String
  requestRows : List RequestRow
  errorRows : List ErrorRow
  keyReq : RequestRow → String
  keyErr : ErrorRow → String
  insertCalls : Nat

/-- `storeRequestLogs` from `prisma.storage.ts`: return 0 when disconnected
or the batch is empty; otherwise perform one batched
`createMany(skipDuplicates)` of the mapped rows and return its count; on a
write failure catch the error, return 0 and mark the connection unhealthy —
the method never throws. -/
def storeRequestLogs (p : PrismaState) (logs : List ILogEntry) : Nat × PrismaState :=
  if !p.isConnected || logs.length == 0 then
    (0, p)
  else
    let p := { p with insertCalls := p.insertCalls + 1 }
    if p.dbOk then
      let prismaLogs := logs.map (mapToRequestLogFormat p.nodeEnv)
      let res := createManySkipDup p.keyReq p.requestRows prismaLogs
      (res.1, { p with requestRows := res.2 })
    else
      (0, { p with isConnected := false })

/-- `storeErrorLogs` from `prisma.storage.ts`: same shape as
`storeRequestLogs`, inserting into the error/application table. -/
def storeErrorLogs (p : PrismaState) (logs : List ILogEntry) : Nat × PrismaState :=
  if !p.isConnected || logs.length == 0 then
    (0, p)
  else
    let p := { p with insertCalls := p.insertCalls + 1 }
    if p.dbOk then
      let prismaLogs := logs.map (mapToErrorLogFormat p.nodeEnv)
      let res := createManySkipDup p.keyErr p.errorRows prismaLogs
      (res.1, { p with errorRows := res.2 })
    else
      (0, { p with isConnected := false })

end PrismaLogStorage

namespace Logger

/-- State of the `Logger` orchestrator: the Entry Queue, the single-flight
flag, the process-identifying constants captured at construction, the
configured queue cap, the environment flag, the state of both downstream
stores, and the list of console emissions made through Winston. -/
structure LoggerState where
  memoryQueue : List IExtendedLogEntry
  isFlushing : Bool
  hostname : String
  pid : Nat
  appName : String
  maxMemoryQueueSize : Nat
  isProduction : Bool
  redis : RedisLogStorage.RedisState
  prisma : PrismaLogStorage.PrismaState
  console : List (ELogLevel × String × Option Metadata)

/-- `enhanceLogEntry` from `logger.ts`: spread the entry and add the host
name, process id, application name and log type. -/
def enhanceLogEntry (s : LoggerState) (entry : ILogEntry) (logType : ELogType) :
    IExtendedLogEntry :=
  { toILogEntry := entry
    hostname := s.hostname
    pid := s.pid
    appName := s.appName
    logType := logType }

/-- The `logs.some(...)` test of `flushToRedis`: does the batch contain an
Error or Warn entry. -/
def hasErrorsOrWarnings (logs : List IExtendedLogEntry) : Bool :=
  logs.any (fun log => log.level == ELogLevel.Error || log.level == ELogLevel.Warn)

/-- The filter predicate for the request/access destination in
`flushRedisToDatabase`: `log.logType === ELogType.REQUEST`. -/
def requestRouted (log : IExtendedLogEntry) : Bool :=
  log.logType == ELogType.REQUEST

/-- The filter predicate for the error/application destination in
`flushRedisToDatabase`: `log.logType === ELogType.ERROR || log.level ===
Error || log.level === Warn`. -/
def errorRouted (log : IExtendedLogEntry) : Bool :=
  log.logType == ELogType.ERROR
    || log.level == ELogLevel.Error
    || log.level == ELogLevel.Warn

/-- `flushRedisToDatabase` from `logger.ts`: drain up to `batchSize` entries
from Redis, return early when nothing was drained, split the batch by the
two routing filters and store each non-empty part in its table.  The catch
branch is unreachable: `getLogs`, `storeRequestLogs` and `storeErrorLogs`
all catch their own errors, so the method never throws. -/
def flushRedisToDatabase (s : LoggerState) (batchSize : Nat) : LoggerState :=
  let res := RedisLogStorage.getLogs s.redis batchSize
  let logs := res.1
  let s := { s with redis := res.2 }
  if logs.length == 0 then s
  else
    let requestLogs := logs.filter requestRouted
    let errorLogs := logs.filter errorRouted
    let s :=
      if requestLogs.length > 0 then
        { s with prisma :=
            (PrismaLogStorage.storeRequestLogs s.prisma
              (requestLogs.map (fun log => log.toILogEntry))).2 }
      else s
    let s :=
      if errorLogs.length > 0 then
        { s with prisma :=
            (PrismaLogStorage.storeErrorLogs s.prisma
              (errorLogs.map (fun log => log.toILogEntry))).2 }
      else s
    s

/-- `flushToRedis` from `logger.ts`: single-flight guard, then drain the
Entry Queue (`toArray` + `clear`), push the batch to Redis, and, in
production or when the batch holds an Error/Warn entry, drain up to 50
entries from Redis into the database; finally reset the flag.  The catch
branch of the source is unreachable — every awaited call inside the try
block (`pushLogs`, and `flushRedisToDatabase` with its own catch) catches
its errors internally — so the body is total and the finally clause always
runs. -/
def flushToRedis (s : LoggerState) : LoggerState :=
  if s.isFlushing || Queue.isEmpty s.memoryQueue then s
  else
    let s := { s with isFlushing := true }
    let logs := Queue.toArray s.memoryQueue
    let s := { s with memoryQueue := Queue.clear s.memoryQueue }
    let res := RedisLogStorage.pushLogs s.redis logs
    let s := { s with redis := res.2 }
    let s :=
      if s.isProduction || hasErrorsOrWarnings logs then
        flushRedisToDatabase s 50
      else s
    { s with isFlushing := false }

/-- The catch block of `flushToRedis` exactly as written in the source: it
re-reads the CURRENT memory queue (`this.memoryQueue.toArray()`), not the
`logs` batch drained in the try block (that binding is shadowed), truncates
the read to `maxMemoryQueueSize`, and enqueues those entries again.  In the
embedding it is dead code, kept to settle the recovery claim. -/
def flushToRedisCatchBlock (s : LoggerState) : LoggerState :=
  let logs := (Queue.toArray s.memoryQueue).take s.maxMemoryQueueSize
  { s with memoryQueue := logs.foldl Queue.enqueue s.memoryQueue }

/-- The batch loop of `flushAll`:
`for (let i = 0; i < count; i += batchSize)` with `batchSize = 100`, so
ceil(count / 100) iterations of `flushRedisToDatabase(100)`. -/
def flushAllLoop : Nat → LoggerState → LoggerState
  | 0, s => s
  | n + 1, s => flushAllLoop n (flushRedisToDatabase s 100)

/-- `flushAll` from `logger.ts`: flush the memory queue to Redis, read the
Redis count, then drain Redis to the database in batches of 100.  Its catch
branch is unreachable for the same reason as in `flushToRedis`. -/
def flushAll (s : LoggerState) : LoggerState :=
  let s := flushToRedis s
  let count := RedisLogStorage.getLogCount s.redis
  flushAllLoop ((count + 99) / 100) s

/-- `logWithType` from `logger.ts`: create the entry with the current time
as its timestamp, enhance it, enqueue it when it should be persisted
(`logType !== CONSOLE || level === Error || level === Warn`), flush when the
queue reached the cap, flush immediately for Error/Warn, and in every case
emit the raw level, message and metadata through Winston. -/
def logWithType (s : LoggerState) (now : Nat) (level : ELogLevel) (message : String)
    (metadata : Option Metadata) (logType : ELogType) : LoggerState :=
  let entry : ILogEntry :=
    { level := level, message := message, timestamp := now, metadata := metadata }
  let enhancedEntry := enhanceLogEntry s entry logType
  let s :=
    if logType != ELogType.CONSOLE
        || level == ELogLevel.Error || level == ELogLevel.Warn then
      let s := { s with memoryQueue := Queue.enqueue s.memoryQueue enhancedEntry }
      let s :=
        if Queue.size s.memoryQueue ≥ s.maxMemoryQueueSize then flushToRedis s else s
      let s :=
        if level == ELogLevel.Error || level == ELogLevel.Warn then flushToRedis s else s
      s
    else s
  { s with console := s.console ++ [(level, message, metadata)] }

/-- `log`: standard application log, `logType = CONSOLE`. -/
def log (s : LoggerState) (now : Nat) (level : ELogLevel) (message : String)
    (metadata : Option Metadata) : LoggerState :=
  logWithType s now level message metadata ELogType.CONSOLE

/-- `logRequest`: forces `logType = REQUEST`. -/
def logRequest (s : LoggerState) (now : Nat) (level : ELogLevel) (message : String)
    (metadata : Option Metadata) : LoggerState :=
  logWithType s now level message metadata ELogType.REQUEST

/-- `logError`: forces `logType = ERROR`. -/
def logError (s : LoggerState) (now : Nat) (level : ELogLevel) (message : String)
    (metadata : Option Metadata) : LoggerState :=
  logWithType s now level message metadata ELogType.ERROR

/-- `debug`: convenience wrapper through `log`. -/
def debug (s : LoggerState) (now : Nat) (message : String)
    (metadata : Option Metadata) : LoggerState :=
  log s now ELogLevel.Debug message metadata

/-- `info`: convenience wrapper through `log`. -/
def info (s : LoggerState) (now : Nat) (message : String)
    (metadata : Option Metadata) : LoggerState :=
  log s now ELogLevel.Info message metadata

/-- `warn`: convenience wrapper through `logError` (warnings are stored in
the error log table). -/
def warn (s : LoggerState) (now : Nat) (message : String)
    (metadata : Option Metadata) : LoggerState :=
  logError s now ELogLevel.Warn message metadata

/-- `error`: convenience wrapper through `logError`. -/
def error (s : LoggerState) (now : Nat) (message : String)
    (metadata : Option Metadata) : LoggerState :=
  logError s now ELogLevel.Error message metadata

/-- The body of the recurring timer installed by
`startBackgroundProcessing`: each tick invokes `flushToRedis` and nothing
else. -/
def onFlushIntervalTick (s : LoggerState) : LoggerState :=
  flushToRedis s

end Logger

/-- Merge realized by the object spread of the default and the call-site
metadata: keys of the later spread `m` override keys of `d`.  Represented
with the overriding bindings first, so that first-match lookup sees the
override. -/
def mergeMeta (d m : Metadata) : Metadata := m ++ d

/-- Untyped JavaScript values as they flow through the child logger method
overrides of `Logger.child`. -/
inductive JSVal
  | vstr (s : String)
  | vobj (m : Metadata)
  | vundef
deriving DecidableEq, Repr

/-- The JS default-parameter rule for the third parameter of the override
lambda: an absent or undefined argument is replaced by an empty object. -/
def defaultToEmptyObj (v : JSVal) : JSVal :=
  match v with
  | JSVal.vundef => JSVal.vobj []
  | v => v

/-- Object spread of the default metadata with a JS value: spreading an
object merges it with later keys winning; spreading anything that is not an
object contributes no keys (only the object case occurs here, because the
third parameter is defaulted). -/
def spreadMerge (d : Metadata) : JSVal → Metadata
  | JSVal.vobj m => mergeMeta d m
  | _ => d

/-- The override `Logger.child` installs, applied to a three-argument method
(`log`, `logRequest`, `logError`) called with positional arguments
`(a1, a2, a3)`: the lambda binds them as level, message and metadata
(defaulted), and forwards
`originalMethod(level, message, spread of defaultMetadata and metadata)`. -/
def childForwardThreeArg (defaultMetadata : Metadata) (a1 a2 a3 : JSVal) :
    JSVal × JSVal × Metadata :=
  let level := a1
  let message := a2
  let metadata := defaultToEmptyObj a3
  (level, message, spreadMerge defaultMetadata metadata)

/-- The override `Logger.child` installs, applied to a two-argument
convenience method (`debug`, `info`, `warn`, `error`) called with
positional arguments `(a1, a2)`: the lambda still binds its parameters as
level, message and metadata, so level is bound to the message argument,
message to the metadata argument, and metadata defaults to an empty object;
it then forwards `originalMethod(message, spread of defaultMetadata and
metadata)` — the first forwarded value is the binding named message, which
holds `a2`. -/
def childForwardTwoArg (defaultMetadata : Metadata) (a1 a2 : JSVal) :
    JSVal × Metadata :=
  let _level := a1
  let message := a2
  let metadata := defaultToEmptyObj JSVal.vundef
  (message, spreadMerge defaultMetadata metadata)

/-- A request-typed Info entry used by the concrete fixtures. -/
def sampleEntry (n : Nat) : IExtendedLogEntry :=
  { level := ELogLevel.Info
    message := "m" ++ toString n
    timestamp := n
    metadata := none
    hostname := "h"
    pid := 1
    appName := "app"
    logType := ELogType.REQUEST }

/-- A healthy, empty Prisma sink fixture keyed on the message column. -/
def basePrisma : PrismaLogStorage.PrismaState :=
  { isConnected := true
    dbOk := true
    nodeEnv := "development"
    requestRows := []
    errorRows := []
    keyReq := fun row => row.message
    keyErr := fun row => row.message
    insertCalls := 0 }

/-- An empty, healthy Redis buffer fixture. -/
def baseRedis : RedisLogStorage.RedisState :=
  { ok := true, queueList := [], backupList := [], pushCalls := 0 }

/-- A quiescent logger fixture in development mode. -/
def baseLogger : Logger.LoggerState :=
  { memoryQueue := []
    isFlushing := false
    hostname := "h"
    pid := 1
    appName := "app"
    maxMemoryQueueSize := 1000
    isProduction := false
    redis := baseRedis
    prisma := basePrisma
    console := [] }

/-- A logger fixture with three Info request entries queued and Redis down. -/
def c1State : Logger.LoggerState :=
  { baseLogger with
    memoryQueue := [sampleEntry 1, sampleEntry 2, sampleEntry 3]
    redis := { baseRedis with ok := false } }

/-- A logger fixture with one entry queued and everything healthy. -/
def busyLogger : Logger.LoggerState :=
  { baseLogger with memoryQueue := [sampleEntry 1] }

theorem pushOne_queueList (r : RedisLogStorage.RedisState) (log : IExtendedLogEntry) :
    (RedisLogStorage.pushOne r log).queueList = log :: r.queueList := by
  unfold RedisLogStorage.pushOne
  split <;> rfl

theorem pushOne_ok (r : RedisLogStorage.RedisState) (log : IExtendedLogEntry) :
    (RedisLogStorage.pushOne r log).ok = r.ok := by
  unfold RedisLogStorage.pushOne
  split <;> rfl

theorem foldl_pushOne_queueList (logs : List IExtendedLogEntry)
    (r : RedisLogStorage.RedisState) :
    (logs.foldl RedisLogStorage.pushOne r).queueList = logs.reverse ++ r.queueList := by
  induction logs generalizing r with
  | nil => simp
  | cons head tail ih => simp [List.foldl_cons, ih, pushOne_queueList]

theorem foldl_pushOne_ok (logs : List IExtendedLogEntry)
    (r : RedisLogStorage.RedisState) :
    (logs.foldl RedisLogStorage.pushOne r).ok = r.ok := by
  induction logs generalizing r with
  | nil => rfl
  | cons head tail ih => simp [List.foldl_cons, ih, pushOne_ok]

/-- C1: the claim states that when pushing the drained batch to the
Intermediate Buffer fails, the drained entries are re-enqueued and the
Entry Queue size returns to 3 after enqueuing 3 entries.  Evaluating the
code at that failing input: with Redis down and three entries queued,
`flushToRedis` clears the queue, `pushLogs` catches the failure internally
and returns 0 without throwing, so the restore branch never runs and the
final queue size is 0, not 3 — the entries are gone from both tiers.  Even
the catch block itself, applied to the post-failure state, re-enqueues the
current (already cleared) queue rather than the drained batch and leaves
the size at 0. -/
theorem c1_failed_push_drops_drained_entries :
    c1State.memoryQueue.length = 3
    ∧ c1State.redis.ok = false
    ∧ (Logger.flushToRedis c1State).memoryQueue.length = 0
    ∧ (Logger.flushToRedis c1State).redis.queueList = []
    ∧ (Logger.flushToRedisCatchBlock (Logger.flushToRedis c1State)).memoryQueue.length = 0 := by
  refine ⟨rfl, rfl, ?_, ?_, ?_⟩ <;> rfl

/-- C9: the claim states that every logging call on a child logger forwards
the message the caller passed and merges the default metadata with the
call-site metadata.  Evaluating the override at the failing input
`child(trace: t1).debug("hello", (a: 1))`: the override lambda binds its
first two parameters as level and message, so the convenience call forwards
the call-site metadata object in message position and drops the call-site
metadata from the merge — only the three-argument methods
(`log`/`logRequest`/`logError`) forward message and merged metadata as the
claim describes. -/
theorem c9_child_convenience_misbinds :
    childForwardTwoArg [("trace", "t1")] (JSVal.vstr "hello") (JSVal.vobj [("a", "1")])
        = (JSVal.vobj [("a", "1")], [("trace", "t1")])
    ∧ (childForwardTwoArg [("trace", "t1")] (JSVal.vstr "hello")
          (JSVal.vobj [("a", "1")])).1 ≠ JSVal.vstr "hello"
    ∧ childForwardThreeArg [("trace", "t1")] (JSVal.vstr "info") (JSVal.vstr "hello")
          (JSVal.vobj [("a", "1")])
        = (JSVal.vstr "info", JSVal.vstr "hello", [("a", "1"), ("trace", "t1")]) := by
  decide

/-- C7: at most one Entry Queue drain is in flight: a flush request arriving
while `isFlushing` is set, or while the queue is empty, returns immediately
with the whole state unchanged (nothing drained, nothing pushed), and every
flush attempt that enters the guard resets `isFlushing` to false on every
path, so the guard can never stay stuck. -/
theorem c7_single_flight_guard (s : Logger.LoggerState) :
    (s.isFlushing = true → Logger.flushToRedis s = s)
    ∧ (s.memoryQueue = [] → Logger.flushToRedis s = s)
    ∧ (s.isFlushing = false → (Logger.flushToRedis s).isFlushing = false) := by
  refine ⟨fun h => by simp [Logger.flushToRedis, h],
    fun h => by simp [Logger.flushToRedis, Queue.isEmpty, h],
    fun h => ?_⟩
  by_cases hq : Queue.isEmpty s.memoryQueue
  · simp [Logger.flushToRedis, hq, h]
  · simp [Logger.flushToRedis, hq, h]

/-- Witness for C7 at concrete states: an in-flight flush and an empty queue
are no-ops, and a real flush attempt ends with the flag reset. -/
theorem c7_single_flight_guard_witness :
    Logger.flushToRedis { busyLogger with isFlushing := true }
        = { busyLogger with isFlushing := true }
    ∧ Logger.flushToRedis baseLogger = baseLogger
    ∧ (Logger.flushToRedis busyLogger).isFlushing = false :=
  ⟨(c7_single_flight_guard _).1 rfl, (c7_single_flight_guard _).2.1 rfl,
    (c7_single_flight_guard _).2.2 rfl⟩

/-- C4: entries pushed to the Intermediate Buffer in order are retrieved in
the same order, not reversed: starting from an empty main list, pushing a
batch (prepend-per-entry) and then reading count-many entries from the
opposite end with a final reversal returns exactly the pushed batch. -/
theorem c4_fifo_roundtrip (logs : List IExtendedLogEntry)
    (r : RedisLogStorage.RedisState) (count : Nat) (hok : r.ok = true)
    (hq : r.queueList = []) (hc : logs.length ≤ count) :
    (RedisLogStorage.getLogs (RedisLogStorage.pushLogs r logs).2 count).1 = logs := by
  have hsnd : (RedisLogStorage.pushLogs r logs).2
      = logs.foldl RedisLogStorage.pushOne { r with pushCalls := r.pushCalls + 1 } := by
    simp [RedisLogStorage.pushLogs, hok]
  have hok2 : (RedisLogStorage.pushLogs r logs).2.ok = true := by
    rw [hsnd, foldl_pushOne_ok]
    exact hok
  have hql : (RedisLogStorage.pushLogs r logs).2.queueList = logs.reverse := by
    rw [hsnd, foldl_pushOne_queueList]
    simp [hq]
  unfold RedisLogStorage.getLogs
  rw [hok2, hql]
  by_cases h0 : count = 0
  · simp [h0]
  · have hlen : logs.length - count = 0 := by omega
    simp [h0, RedisLogStorage.lastN, hlen]

/-- Witness for C4: pushing the batch A, B, C into an empty buffer and
retrieving three entries returns A, B, C in that order. -/
theorem c4_fifo_roundtrip_witness :
    (RedisLogStorage.getLogs
        (RedisLogStorage.pushLogs baseRedis
          [sampleEntry 1, sampleEntry 2, sampleEntry 3]).2 3).1
      = [sampleEntry 1, sampleEntry 2, sampleEntry 3] :=
  c4_fifo_roundtrip _ _ _ rfl rfl (by decide)

theorem flushRedisToDatabase_console (s : Logger.LoggerState) (b : Nat) :
    (Logger.flushRedisToDatabase s b).console = s.console := by
  simp only [Logger.flushRedisToDatabase]
  split
  · rfl
  · split <;> split <;> rfl

theorem flushToRedis_console (s : Logger.LoggerState) :
    (Logger.flushToRedis s).console = s.console := by
  simp only [Logger.flushToRedis]
  split
  · rfl
  · split
    · exact flushRedisToDatabase_console _ _
    · rfl

theorem flushToRedis_of_isFlushing (s : Logger.LoggerState) (h : s.isFlushing = true) :
    Logger.flushToRedis s = s := by
  simp [Logger.flushToRedis, h]

theorem flushToRedis_of_empty (s : Logger.LoggerState) (h : s.memoryQueue = []) :
    Logger.flushToRedis s = s := by
  simp [Logger.flushToRedis, Queue.isEmpty, h]

theorem logWithType_console (t : Logger.LoggerState) (now : Nat) (level : ELogLevel)
    (msg : String) (md : Option Metadata) (lt : ELogType) :
    (Logger.logWithType t now level msg md lt).console = t.console ++ [(level, msg, md)] := by
  simp only [Logger.logWithType]
  split
  · split <;> split <;> simp [flushToRedis_console]
  · rfl

/-- C2: a logging call appends the (enhanced) entry to the Entry Queue if
and only if its log type is not console-only or its level is Warn or Error;
console output is emitted unconditionally for every call on every state;
and a console-only Debug/Info call leaves the Entry Queue, the Intermediate
Buffer and the Relational Sink untouched, so such an entry is never
enqueued and never persisted.  The public entry points fix the log type as
`log = CONSOLE`, `logRequest = REQUEST`, `logError = ERROR`.  The queue
equivalence is stated on a state whose single-flight flag is set, which
freezes the immediate flushes the call may additionally trigger. -/
theorem c2_enqueue_iff_persist_policy (s : Logger.LoggerState) (now : Nat)
    (level : ELogLevel) (msg : String) (md : Option Metadata) (lt : ELogType)
    (hF : s.isFlushing = true) :
    ((Logger.logWithType s now level msg md lt).memoryQueue
        = s.memoryQueue
          ++ [Logger.enhanceLogEntry s
                { level := level, message := msg, timestamp := now, metadata := md } lt]
      ↔ (lt ≠ ELogType.CONSOLE ∨ level = ELogLevel.Warn ∨ level = ELogLevel.Error))
    ∧ (∀ t : Logger.LoggerState,
        (Logger.logWithType t now level msg md lt).console = t.console ++ [(level, msg, md)])
    ∧ (lt = ELogType.CONSOLE → level = ELogLevel.Debug ∨ level = ELogLevel.Info →
        (Logger.logWithType s now level msg md lt).memoryQueue = s.memoryQueue
        ∧ (Logger.logWithType s now level msg md lt).redis = s.redis
        ∧ (Logger.logWithType s now level msg md lt).prisma = s.prisma)
    ∧ Logger.log s now level msg md = Logger.logWithType s now level msg md ELogType.CONSOLE
    ∧ Logger.logRequest s now level msg md
        = Logger.logWithType s now level msg md ELogType.REQUEST
    ∧ Logger.logError s now level msg md
        = Logger.logWithType s now level msg md ELogType.ERROR := by
  by_cases hcond :
      (lt != ELogType.CONSOLE || level == ELogLevel.Error || level == ELogLevel.Warn) = true
  · have hx := flushToRedis_of_isFlushing { s with memoryQueue := Queue.enqueue s.memoryQueue (Logger.enhanceLogEntry s { level := level, message := msg, timestamp := now, metadata := md } lt) } hF
    have hred : Logger.logWithType s now level msg md lt
        = { s with memoryQueue := Queue.enqueue s.memoryQueue (Logger.enhanceLogEntry s { level := level, message := msg, timestamp := now, metadata := md } lt), console := s.console ++ [(level, msg, md)] } := by
      simp only [Logger.logWithType]
      rw [if_pos hcond]
      simp only [hx, ite_self]
    have hprop : lt ≠ ELogType.CONSOLE ∨ level = ELogLevel.Warn ∨ level = ELogLevel.Error := by
      simp only [Bool.or_eq_true, bne_iff_ne, beq_iff_eq] at hcond
      tauto
    refine ⟨?_, fun t => logWithType_console t now level msg md lt, ?_, rfl, rfl, rfl⟩
    · rw [hred]
      simp [Queue.enqueue, hprop]
    · intro h1 h2
      rcases hprop with h | h | h
      · exact absurd h1 h
      · rcases h2 with h2 | h2 <;> simp [h] at h2
      · rcases h2 with h2 | h2 <;> simp [h] at h2
  · have hred : Logger.logWithType s now level msg md lt
        = { s with console := s.console ++ [(level, msg, md)] } := by
      simp only [Logger.logWithType]
      rw [if_neg hcond]
    have hprop : ¬(lt ≠ ELogType.CONSOLE ∨ level = ELogLevel.Warn ∨ level = ELogLevel.Error) := by
      simp only [Bool.or_eq_true, bne_iff_ne, beq_iff_eq] at hcond
      push_neg at hcond
      tauto
    refine ⟨?_, fun t => logWithType_console t now level msg md lt, ?_, rfl, rfl, rfl⟩
    · rw [hred]
      constructor
      · intro h
        exfalso
        have hlen := congrArg List.length h
        simp at hlen
      · intro h
        exact absurd h hprop
    · intro _ _
      rw [hred]
      exact ⟨rfl, rfl, rfl⟩

/-- Witness for C2 at a concrete state with the flag set: a Request/Info
call appends exactly the enhanced entry to the Entry Queue. -/
theorem c2_enqueue_iff_persist_policy_witness :
    (Logger.logWithType { busyLogger with isFlushing := true } 5 ELogLevel.Info "m" none
        ELogType.REQUEST).memoryQueue
      = { busyLogger with isFlushing := true }.memoryQueue
        ++ [Logger.enhanceLogEntry { busyLogger with isFlushing := true }
              { level := ELogLevel.Info, message := "m", timestamp := 5, metadata := none }
              ELogType.REQUEST] :=
  ((c2_enqueue_iff_persist_policy { busyLogger with isFlushing := true } 5 ELogLevel.Info
      "m" none ELogType.REQUEST rfl).1).mpr (Or.inl (by decide))

theorem logWithType_frozen (s : Logger.LoggerState) (now : Nat) (level : ELogLevel)
    (msg : String) (md : Option Metadata) (lt : ELogType) (hF : s.isFlushing = true)
    (hcond : (lt != ELogType.CONSOLE || level == ELogLevel.Error || level == ELogLevel.Warn)
        = true) :
    Logger.logWithType s now level msg md lt
      = { s with memoryQueue := Queue.enqueue s.memoryQueue (Logger.enhanceLogEntry s { level := level, message := msg, timestamp := now, metadata := md } lt), console := s.console ++ [(level, msg, md)] } := by
  have hx := flushToRedis_of_isFlushing { s with memoryQueue := Queue.enqueue s.memoryQueue (Logger.enhanceLogEntry s { level := level, message := msg, timestamp := now, metadata := md } lt) } hF
  simp only [Logger.logWithType]
  rw [if_pos hcond]
  simp only [hx, ite_self]

/-- C8 counterexample: the claim places the enrichment at the Entry Queue →
Intermediate Buffer boundary, i.e. entries resident in the Entry Queue are
still un-enriched.  Evaluating the code on a fresh logger: after a single
`logRequest` call, with zero Intermediate Buffer interactions so far (the
Redis state is untouched), the entry sitting in the Entry Queue already
carries the process host name and application name — enrichment happened
strictly before the queue → buffer boundary. -/
theorem c8_enriched_before_buffer_boundary :
    ((Logger.logRequest baseLogger 5 ELogLevel.Info "m" none).memoryQueue.map
        (fun e => e.hostname)) = ["h"]
    ∧ ((Logger.logRequest baseLogger 5 ELogLevel.Info "m" none).memoryQueue.map
        (fun e => e.appName)) = ["app"]
    ∧ (Logger.logRequest baseLogger 5 ELogLevel.Info "m" none).redis = baseLogger.redis := by
  decide

/-- C8 (amended): enrichment with host name, process id and application name
is applied exactly once, at entry creation just before the entry is
enqueued (the caller → Entry Queue boundary), rather than at the Entry
Queue → Intermediate Buffer boundary; the flush pushes the queued entries
to the Intermediate Buffer verbatim (no second enrichment); console output
is emitted from the raw level, message and metadata, un-enriched; and
enrichment changes no other field — the enriched entry keeps the level,
message, creation timestamp and metadata of the original, which are never
mutated afterwards. -/
theorem c8_enrichment_at_creation (s : Logger.LoggerState) (entry : ILogEntry)
    (lt : ELogType) (now : Nat) (level : ELogLevel) (msg : String) (md : Option Metadata)
    (hF : s.isFlushing = true) :
    ((Logger.enhanceLogEntry s entry lt).level = entry.level
      ∧ (Logger.enhanceLogEntry s entry lt).message = entry.message
      ∧ (Logger.enhanceLogEntry s entry lt).timestamp = entry.timestamp
      ∧ (Logger.enhanceLogEntry s entry lt).metadata = entry.metadata
      ∧ (Logger.enhanceLogEntry s entry lt).hostname = s.hostname
      ∧ (Logger.enhanceLogEntry s entry lt).pid = s.pid
      ∧ (Logger.enhanceLogEntry s entry lt).appName = s.appName
      ∧ (Logger.enhanceLogEntry s entry lt).logType = lt)
    ∧ (lt ≠ ELogType.CONSOLE →
        (Logger.logWithType s now level msg md lt).memoryQueue
          = s.memoryQueue ++ [Logger.enhanceLogEntry s { level := level, message := msg, timestamp := now, metadata := md } lt])
    ∧ (∀ t : Logger.LoggerState,
        (Logger.logWithType t now level msg md lt).console = t.console ++ [(level, msg, md)])
    ∧ (∀ r : Logger.LoggerState, r.isFlushing = false → r.redis.ok = true →
        r.isProduction = false → Logger.hasErrorsOrWarnings r.memoryQueue = false →
        (Logger.flushToRedis r).redis.queueList
          = r.memoryQueue.reverse ++ r.redis.queueList) := by
  refine ⟨⟨rfl, rfl, rfl, rfl, rfl, rfl, rfl, rfl⟩, ?_, fun t => logWithType_console t now level msg md lt, ?_⟩
  · intro hlt
    have hcond : (lt != ELogType.CONSOLE || level == ELogLevel.Error || level == ELogLevel.Warn)
        = true := by
      simp [bne_iff_ne, hlt]
    rw [logWithType_frozen s now level msg md lt hF hcond]
    simp [Queue.enqueue]
  · intro r hrF hok hprod hwe
    by_cases hq : r.memoryQueue = []
    · rw [flushToRedis_of_empty r hq, hq]
      simp
    · have hguard : ¬((r.isFlushing || Queue.isEmpty r.memoryQueue) = true) := by
        simp [hrF, Queue.isEmpty, List.isEmpty_iff, hq]
      simp only [Logger.flushToRedis]
      rw [if_neg hguard]
      rw [if_neg (by simp [hprod, hwe, Queue.toArray] : ¬_)]
      simp [Queue.toArray, RedisLogStorage.pushLogs, hok, foldl_pushOne_queueList]

/-- Witness for C8 at a concrete frozen state: an Error-typed Info call
appends exactly the entry enhanced at creation time. -/
theorem c8_enrichment_at_creation_witness :
    (Logger.logWithType { busyLogger with isFlushing := true } 7 ELogLevel.Info "w" none
        ELogType.ERROR).memoryQueue
      = { busyLogger with isFlushing := true }.memoryQueue
        ++ [Logger.enhanceLogEntry { busyLogger with isFlushing := true }
              { level := ELogLevel.Info, message := "w", timestamp := 7, metadata := none }
              ELogType.ERROR] :=
  (c8_enrichment_at_creation { busyLogger with isFlushing := true }
      { level := ELogLevel.Info, message := "x", timestamp := 0, metadata := none }
      ELogType.ERROR 7 ELogLevel.Info "w" none rfl).2.1 (by decide)

/-- A request-typed Warn entry: severity forces the error route while the
log type selects the request route. -/
def dualEntry : IExtendedLogEntry :=
  { level := ELogLevel.Warn
    message := "dual"
    timestamp := 9
    metadata := none
    hostname := "h"
    pid := 1
    appName := "app"
    logType := ELogType.REQUEST }

/-- A logger fixture whose Intermediate Buffer holds exactly `dualEntry`. -/
def c3State : Logger.LoggerState :=
  { baseLogger with redis := { baseRedis with queueList := [dualEntry] } }

/-- C3 counterexample: the claim says every drained entry is routed to
exactly one relational destination, never both.  Evaluating the code on a
buffer holding a single Request-typed Warn entry: after one database flush
the mapped row of that one entry is present in the request/access table AND
in the error/application table — both destinations received it. -/
theorem c3_request_warn_routed_to_both :
    dualEntry.logType = ELogType.REQUEST
    ∧ dualEntry.level = ELogLevel.Warn
    ∧ (Logger.flushRedisToDatabase c3State 50).prisma.requestRows
        = [PrismaLogStorage.mapToRequestLogFormat "development" dualEntry.toILogEntry]
    ∧ (Logger.flushRedisToDatabase c3State 50).prisma.errorRows
        = [PrismaLogStorage.mapToErrorLogFormat "development" dualEntry.toILogEntry] := by
  decide

theorem createManySkipDup_mem_of_mem (key : α → String) (table rows : List α) (x : α)
    (hx : x ∈ table) : x ∈ (PrismaLogStorage.createManySkipDup key table rows).2 := by
  induction rows generalizing table with
  | nil => simpa [PrismaLogStorage.createManySkipDup] using hx
  | cons r rs ih =>
    simp only [PrismaLogStorage.createManySkipDup]
    split
    · exact ih table hx
    · exact ih (table ++ [r]) (List.mem_append_left _ hx)

theorem createManySkipDup_key_mem (key : α → String) (table rows : List α) (x : α)
    (hx : x ∈ rows) :
    key x ∈ ((PrismaLogStorage.createManySkipDup key table rows).2.map key) := by
  induction rows generalizing table with
  | nil => cases hx
  | cons r rs ih =>
    rcases List.mem_cons.mp hx with hx | hx
    · subst hx
      simp only [PrismaLogStorage.createManySkipDup]
      split
      · rename_i hc
        have hcm : key x ∈ table.map key := by simpa using hc
        obtain ⟨y, hy, hky⟩ := List.mem_map.mp hcm
        have hy2 := createManySkipDup_mem_of_mem key table rs y hy
        rw [← hky]
        exact List.mem_map_of_mem key hy2
      · have hy2 := createManySkipDup_mem_of_mem key (table ++ [x]) rs x (by simp)
        exact List.mem_map_of_mem key hy2
    · simp only [PrismaLogStorage.createManySkipDup]
      split
      · exact ih table hx
      · exact ih (table ++ [r]) hx

theorem storeRequestLogs_frame (p : PrismaLogStorage.PrismaState) (logs : List ILogEntry)
    (hdb : p.dbOk = true) :
    (PrismaLogStorage.storeRequestLogs p logs).2.errorRows = p.errorRows
    ∧ (PrismaLogStorage.storeRequestLogs p logs).2.keyErr = p.keyErr
    ∧ (PrismaLogStorage.storeRequestLogs p logs).2.nodeEnv = p.nodeEnv
    ∧ (PrismaLogStorage.storeRequestLogs p logs).2.dbOk = true
    ∧ (PrismaLogStorage.storeRequestLogs p logs).2.isConnected = p.isConnected := by
  simp only [PrismaLogStorage.storeRequestLogs, hdb, eq_self_iff_true, if_true]
  split
  · exact ⟨rfl, rfl, rfl, hdb, rfl⟩
  · exact ⟨rfl, rfl, rfl, rfl, rfl⟩

theorem storeErrorLogs_success (p : PrismaLogStorage.PrismaState) (logs : List ILogEntry)
    (hconn : p.isConnected = true) (hdb : p.dbOk = true) (hne : logs ≠ []) :
    (PrismaLogStorage.storeErrorLogs p logs).2.errorRows
      = (PrismaLogStorage.createManySkipDup p.keyErr p.errorRows
          (logs.map (PrismaLogStorage.mapToErrorLogFormat p.nodeEnv))).2 := by
  have hguard : ¬((!p.isConnected || logs.length == 0) = true) := by
    simp [hconn, List.length_eq_zero, hne]
  simp only [PrismaLogStorage.storeErrorLogs]
  rw [if_neg hguard, if_pos hdb]

theorem flushRedisToDatabase_prisma_char (s : Logger.LoggerState) (b : Nat)
    (hne : (RedisLogStorage.getLogs s.redis b).1 ≠ []) :
    (Logger.flushRedisToDatabase s b).prisma
      = (if ((RedisLogStorage.getLogs s.redis b).1.filter Logger.errorRouted).length > 0 then
          (PrismaLogStorage.storeErrorLogs
            (if ((RedisLogStorage.getLogs s.redis b).1.filter Logger.requestRouted).length > 0
              then
                (PrismaLogStorage.storeRequestLogs s.prisma
                  (((RedisLogStorage.getLogs s.redis b).1.filter Logger.requestRouted).map
                    (fun log => log.toILogEntry))).2
              else s.prisma)
            (((RedisLogStorage.getLogs s.redis b).1.filter Logger.errorRouted).map
              (fun log => log.toILogEntry))).2
        else
          (if ((RedisLogStorage.getLogs s.redis b).1.filter Logger.requestRouted).length > 0
            then
              (PrismaLogStorage.storeRequestLogs s.prisma
                (((RedisLogStorage.getLogs s.redis b).1.filter Logger.requestRouted).map
                  (fun log => log.toILogEntry))).2
            else s.prisma)) := by
  have hguard : ¬(((RedisLogStorage.getLogs s.redis b).1.length == 0) = true) := by
    simp [List.length_eq_zero, hne]
  simp only [Logger.flushRedisToDatabase]
  rw [if_neg hguard]
  split <;> split <;> rfl

/-- C3 (amended): every entry drained from the Intermediate Buffer during a
flush is routed to the request/access table if and only if its log type is
Request, and to the error/application table if and only if its log type is
Error or its level is Warn or Error — so an entry that is Request-typed
with Warn/Error level is routed to BOTH destinations, not exactly one;
every Warn/Error entry reaches the error-destination table (its row key is
present there after the flush) even when its log type was not Error; and a
console-only entry below Warn severity is routed to neither destination. -/
theorem c3_routing_by_type_and_severity (s : Logger.LoggerState) (b : Nat)
    (e : IExtendedLogEntry)
    (hconn : s.prisma.isConnected = true) (hdb : s.prisma.dbOk = true)
    (he : e ∈ (RedisLogStorage.getLogs s.redis b).1) :
    (e ∈ ((RedisLogStorage.getLogs s.redis b).1.filter Logger.requestRouted)
      ↔ e.logType = ELogType.REQUEST)
    ∧ (e ∈ ((RedisLogStorage.getLogs s.redis b).1.filter Logger.errorRouted)
      ↔ (e.logType = ELogType.ERROR ∨ e.level = ELogLevel.Error ∨ e.level = ELogLevel.Warn))
    ∧ ((e.level = ELogLevel.Warn ∨ e.level = ELogLevel.Error) →
        s.prisma.keyErr (PrismaLogStorage.mapToErrorLogFormat s.prisma.nodeEnv e.toILogEntry)
          ∈ ((Logger.flushRedisToDatabase s b).prisma.errorRows.map s.prisma.keyErr))
    ∧ ((e.logType = ELogType.CONSOLE ∧ (e.level = ELogLevel.Debug ∨ e.level = ELogLevel.Info)) →
        (e ∉ ((RedisLogStorage.getLogs s.redis b).1.filter Logger.requestRouted)
          ∧ e ∉ ((RedisLogStorage.getLogs s.redis b).1.filter Logger.errorRouted))) := by
  refine ⟨?_, ?_, ?_, ?_⟩
  · simp [List.mem_filter, he, Logger.requestRouted]
  · rw [List.mem_filter]
    simp only [he, true_and, Logger.errorRouted, Bool.or_eq_true, beq_iff_eq]
    tauto
  · intro hsev
    have hne : (RedisLogStorage.getLogs s.redis b).1 ≠ [] := by
      intro hnil
      rw [hnil] at he
      cases he
    have heR : Logger.errorRouted e = true := by
      rcases hsev with h | h <;> simp [Logger.errorRouted, h]
    have heM : e ∈ (RedisLogStorage.getLogs s.redis b).1.filter Logger.errorRouted :=
      List.mem_filter.mpr ⟨he, heR⟩
    have hlen : ((RedisLogStorage.getLogs s.redis b).1.filter Logger.errorRouted).length > 0 :=
      List.length_pos.mpr (fun hnil => by rw [hnil] at heM; cases heM)
    have hbatchpos : 0 < (((RedisLogStorage.getLogs s.redis b).1.filter
        Logger.errorRouted).map (fun log => log.toILogEntry)).length := by
      simpa using hlen
    have hbatchne := List.ne_nil_of_length_pos hbatchpos
    have hstep : ∀ p2 : PrismaLogStorage.PrismaState, p2.isConnected = true → p2.dbOk = true →
        p2.keyErr = s.prisma.keyErr → p2.nodeEnv = s.prisma.nodeEnv →
        s.prisma.keyErr (PrismaLogStorage.mapToErrorLogFormat s.prisma.nodeEnv e.toILogEntry)
          ∈ (((PrismaLogStorage.storeErrorLogs p2
                (((RedisLogStorage.getLogs s.redis b).1.filter Logger.errorRouted).map
                  (fun log => log.toILogEntry))).2.errorRows).map s.prisma.keyErr) := by
      intro p2 h1 h2 h3 h4
      rw [storeErrorLogs_success p2 _ h1 h2 hbatchne, h3, h4]
      exact createManySkipDup_key_mem _ _ _ _
        (List.mem_map_of_mem _ (List.mem_map_of_mem _ heM))
    rw [flushRedisToDatabase_prisma_char s b hne, if_pos hlen]
    by_cases hreq :
        ((RedisLogStorage.getLogs s.redis b).1.filter Logger.requestRouted).length > 0
    · rw [if_pos hreq]
      obtain ⟨hfErr, hfKey, hfEnv, hfDb, hfConn⟩ := storeRequestLogs_frame s.prisma
        (((RedisLogStorage.getLogs s.redis b).1.filter Logger.requestRouted).map
          (fun log => log.toILogEntry)) hdb
      exact hstep _ (by rw [hfConn]; exact hconn) hfDb hfKey hfEnv
    · rw [if_neg hreq]
      exact hstep _ hconn hdb rfl rfl
  · rintro ⟨hct, hlev⟩
    constructor
    · intro hmem
      have hflag := (List.mem_filter.mp hmem).2
      simp [Logger.requestRouted, hct] at hflag
    · intro hmem
      have hflag := (List.mem_filter.mp hmem).2
      rcases hlev with h | h <;> simp [Logger.errorRouted, hct, h] at hflag

/-- Witness for C3 (amended) at the concrete buffer holding the
Request-typed Warn entry: its row key is present in the error table after
the flush. -/
theorem c3_routing_by_type_and_severity_witness :
    c3State.prisma.keyErr
        (PrismaLogStorage.mapToErrorLogFormat c3State.prisma.nodeEnv dualEntry.toILogEntry)
      ∈ ((Logger.flushRedisToDatabase c3State 50).prisma.errorRows.map c3State.prisma.keyErr) :=
  (c3_routing_by_type_and_severity c3State 50 dualEntry rfl rfl
    (by decide)).2.2.1 (Or.inl rfl)

theorem createManySkipDup_length (key : α → String) (table rows : List α) :
    (PrismaLogStorage.createManySkipDup key table rows).2.length
      = table.length + (PrismaLogStorage.createManySkipDup key table rows).1 := by
  induction rows generalizing table with
  | nil => simp [PrismaLogStorage.createManySkipDup]
  | cons r rs ih =>
    simp only [PrismaLogStorage.createManySkipDup]
    split
    · exact ih table
    · simp only
      rw [ih (table ++ [r])]
      simp [List.length_append]
      omega

theorem createManySkipDup_count_le (key : α → String) (table rows : List α) :
    (PrismaLogStorage.createManySkipDup key table rows).1 ≤ rows.length := by
  induction rows generalizing table with
  | nil => simp [PrismaLogStorage.createManySkipDup]
  | cons r rs ih =>
    simp only [PrismaLogStorage.createManySkipDup]
    split
    · exact Nat.le_succ_of_le (ih table)
    · simpa using Nat.succ_le_succ (ih (table ++ [r]))

theorem createManySkipDup_all_dup (key : α → String) (table rows : List α)
    (h : ∀ r ∈ rows, key r ∈ table.map key) :
    PrismaLogStorage.createManySkipDup key table rows = (0, table) := by
  induction rows with
  | nil => rfl
  | cons r rs ih =>
    have hr : key r ∈ table.map key := h r (List.mem_cons_self r rs)
    simp only [PrismaLogStorage.createManySkipDup]
    rw [if_pos (by simpa using hr)]
    exact ih (fun x hx => h x (List.mem_cons_of_mem r hx))

theorem storeRequestLogs_success_eq (p : PrismaLogStorage.PrismaState)
    (logs : List ILogEntry) (hconn : p.isConnected = true) (hdb : p.dbOk = true)
    (hne : logs ≠ []) :
    PrismaLogStorage.storeRequestLogs p logs
      = ((PrismaLogStorage.createManySkipDup p.keyReq p.requestRows
            (logs.map (PrismaLogStorage.mapToRequestLogFormat p.nodeEnv))).1,
          { p with requestRows := (PrismaLogStorage.createManySkipDup p.keyReq p.requestRows (logs.map (PrismaLogStorage.mapToRequestLogFormat p.nodeEnv))).2, insertCalls := p.insertCalls + 1 }) := by
  have hguard : ¬((!p.isConnected || logs.length == 0) = true) := by
    simp [hconn, List.length_eq_zero, hne]
  simp only [PrismaLogStorage.storeRequestLogs]
  rw [if_neg hguard, if_pos hdb]

theorem storeErrorLogs_success_eq (p : PrismaLogStorage.PrismaState)
    (logs : List ILogEntry) (hconn : p.isConnected = true) (hdb : p.dbOk = true)
    (hne : logs ≠ []) :
    PrismaLogStorage.storeErrorLogs p logs
      = ((PrismaLogStorage.createManySkipDup p.keyErr p.errorRows
            (logs.map (PrismaLogStorage.mapToErrorLogFormat p.nodeEnv))).1,
          { p with errorRows := (PrismaLogStorage.createManySkipDup p.keyErr p.errorRows (logs.map (PrismaLogStorage.mapToErrorLogFormat p.nodeEnv))).2, insertCalls := p.insertCalls + 1 }) := by
  have hguard : ¬((!p.isConnected || logs.length == 0) = true) := by
    simp [hconn, List.length_eq_zero, hne]
  simp only [PrismaLogStorage.storeErrorLogs]
  rw [if_neg hguard, if_pos hdb]

theorem storeRequestLogs_fail_eq (p : PrismaLogStorage.PrismaState)
    (logs : List ILogEntry) (hconn : p.isConnected = true) (hdb : p.dbOk = false)
    (hne : logs ≠ []) :
    PrismaLogStorage.storeRequestLogs p logs
      = (0, { p with isConnected := false, insertCalls := p.insertCalls + 1 }) := by
  have hguard : ¬((!p.isConnected || logs.length == 0) = true) := by
    simp [hconn, List.length_eq_zero, hne]
  simp only [PrismaLogStorage.storeRequestLogs]
  rw [if_neg hguard, if_neg (by simp [hdb])]

theorem storeErrorLogs_fail_eq (p : PrismaLogStorage.PrismaState)
    (logs : List ILogEntry) (hconn : p.isConnected = true) (hdb : p.dbOk = false)
    (hne : logs ≠ []) :
    PrismaLogStorage.storeErrorLogs p logs
      = (0, { p with isConnected := false, insertCalls := p.insertCalls + 1 }) := by
  have hguard : ¬((!p.isConnected || logs.length == 0) = true) := by
    simp [hconn, List.length_eq_zero, hne]
  simp only [PrismaLogStorage.storeErrorLogs]
  rw [if_neg hguard, if_neg (by simp [hdb])]

/-- C6: for a non-empty batch on a connected sink, each store method
performs exactly one batched insert attempt per call; on success it returns
the number of rows newly created (the table grows by exactly the returned
count, which is at most the number attempted, and a batch whose every row
key already exists creates nothing and returns 0 — colliding entries are
silently skipped), it keeps the connection healthy and leaves the other
table untouched; on a write failure it returns 0, marks the connection
unhealthy (`isConnected` becomes false), changes no table, and raises no
exception to the caller (both methods are total functions of the state). -/
theorem c6_store_semantics (p : PrismaLogStorage.PrismaState) (logs : List ILogEntry)
    (hconn : p.isConnected = true) (hne : logs ≠ []) :
    (p.dbOk = false →
        PrismaLogStorage.storeRequestLogs p logs
          = (0, { p with isConnected := false, insertCalls := p.insertCalls + 1 })
      ∧ PrismaLogStorage.storeErrorLogs p logs
          = (0, { p with isConnected := false, insertCalls := p.insertCalls + 1 }))
    ∧ (p.dbOk = true →
        (PrismaLogStorage.storeRequestLogs p logs).2.insertCalls = p.insertCalls + 1
        ∧ (PrismaLogStorage.storeRequestLogs p logs).2.requestRows.length
            = p.requestRows.length + (PrismaLogStorage.storeRequestLogs p logs).1
        ∧ (PrismaLogStorage.storeRequestLogs p logs).1 ≤ logs.length
        ∧ ((∀ r ∈ logs.map (PrismaLogStorage.mapToRequestLogFormat p.nodeEnv),
              p.keyReq r ∈ p.requestRows.map p.keyReq) →
            PrismaLogStorage.storeRequestLogs p logs
              = (0, { p with insertCalls := p.insertCalls + 1 }))
        ∧ (PrismaLogStorage.storeRequestLogs p logs).2.isConnected = true
        ∧ (PrismaLogStorage.storeRequestLogs p logs).2.errorRows = p.errorRows)
    ∧ (p.dbOk = true →
        (PrismaLogStorage.storeErrorLogs p logs).2.insertCalls = p.insertCalls + 1
        ∧ (PrismaLogStorage.storeErrorLogs p logs).2.errorRows.length
            = p.errorRows.length + (PrismaLogStorage.storeErrorLogs p logs).1
        ∧ (PrismaLogStorage.storeErrorLogs p logs).1 ≤ logs.length
        ∧ ((∀ r ∈ logs.map (PrismaLogStorage.mapToErrorLogFormat p.nodeEnv),
              p.keyErr r ∈ p.errorRows.map p.keyErr) →
            PrismaLogStorage.storeErrorLogs p logs
              = (0, { p with insertCalls := p.insertCalls + 1 }))
        ∧ (PrismaLogStorage.storeErrorLogs p logs).2.isConnected = true
        ∧ (PrismaLogStorage.storeErrorLogs p logs).2.requestRows = p.requestRows) := by
  refine ⟨fun hdb => ⟨storeRequestLogs_fail_eq p logs hconn hdb hne,
      storeErrorLogs_fail_eq p logs hconn hdb hne⟩, fun hdb => ?_, fun hdb => ?_⟩
  · rw [storeRequestLogs_success_eq p logs hconn hdb hne]
    refine ⟨rfl, ?_, ?_, ?_, hconn, rfl⟩
    · exact createManySkipDup_length _ _ _
    · calc (PrismaLogStorage.createManySkipDup p.keyReq p.requestRows
            (logs.map (PrismaLogStorage.mapToRequestLogFormat p.nodeEnv))).1
          ≤ (logs.map (PrismaLogStorage.mapToRequestLogFormat p.nodeEnv)).length :=
            createManySkipDup_count_le _ _ _
        _ = logs.length := List.length_map _ _
    · intro hall
      rw [createManySkipDup_all_dup _ _ _ hall]
  · rw [storeErrorLogs_success_eq p logs hconn hdb hne]
    refine ⟨rfl, ?_, ?_, ?_, hconn, rfl⟩
    · exact createManySkipDup_length _ _ _
    · calc (PrismaLogStorage.createManySkipDup p.keyErr p.errorRows
            (logs.map (PrismaLogStorage.mapToErrorLogFormat p.nodeEnv))).1
          ≤ (logs.map (PrismaLogStorage.mapToErrorLogFormat p.nodeEnv)).length :=
            createManySkipDup_count_le _ _ _
        _ = logs.length := List.length_map _ _
    · intro hall
      rw [createManySkipDup_all_dup _ _ _ hall]

/-- Witness for C6 at concrete inputs: a failing write returns 0 and marks
the sink unhealthy; a successful write performs exactly one insert
attempt. -/
theorem c6_store_semantics_witness :
    PrismaLogStorage.storeRequestLogs { basePrisma with dbOk := false }
        [(sampleEntry 1).toILogEntry]
      = (0, { { basePrisma with dbOk := false } with isConnected := false, insertCalls := basePrisma.insertCalls + 1 })
    ∧ (PrismaLogStorage.storeRequestLogs basePrisma
        [(sampleEntry 1).toILogEntry]).2.insertCalls = basePrisma.insertCalls + 1 :=
  ⟨((c6_store_semantics { basePrisma with dbOk := false } _ rfl (by decide)).1 rfl).1,
    ((c6_store_semantics basePrisma _ rfl (by decide)).2.1 rfl).1⟩

theorem flushRedisToDatabase_redis (t : Logger.LoggerState) (b : Nat) :
    (Logger.flushRedisToDatabase t b).redis = (RedisLogStorage.getLogs t.redis b).2 := by
  simp only [Logger.flushRedisToDatabase]
  split
  · rfl
  · split <;> split <;> rfl

theorem getLogs_ok (r : RedisLogStorage.RedisState) (b : Nat) :
    ((RedisLogStorage.getLogs r b).2).ok = r.ok := by
  simp only [RedisLogStorage.getLogs]
  split
  · split <;> rfl
  · rfl

theorem getLogs_trim_length (r : RedisLogStorage.RedisState) (b : Nat)
    (hok : r.ok = true) (hb : b ≠ 0) :
    ((RedisLogStorage.getLogs r b).2).queueList.length = r.queueList.length - b := by
  simp only [RedisLogStorage.getLogs, hok, if_true]
  rw [if_neg hb]
  simp [List.length_take]

theorem getLogs_trim_length_le (r : RedisLogStorage.RedisState) (b : Nat) :
    r.queueList.length - ((RedisLogStorage.getLogs r b).2).queueList.length ≤ b := by
  by_cases hok : r.ok = true
  · by_cases hb : b = 0
    · subst hb
      simp [RedisLogStorage.getLogs, hok]
    · rw [getLogs_trim_length r b hok hb]
      omega
  · have : r.ok = false := by simpa using hok
    simp [RedisLogStorage.getLogs, this]

/-- C10: the background timer tick invokes the Entry Queue flush and
nothing else; that flush leaves the Relational Sink completely untouched
and only pushes to the Intermediate Buffer whenever the environment is not
production and the drained batch holds no Warn/Error entry; and in the
remaining case the flush is exactly the push followed by a single
database drain with batch size 50, which removes at most 50 entries from
the Intermediate Buffer. -/
theorem c10_buffer_drain_occasions (s : Logger.LoggerState) (h : s.isFlushing = false) :
    Logger.onFlushIntervalTick s = Logger.flushToRedis s
    ∧ (s.memoryQueue ≠ [] → s.isProduction = false →
        Logger.hasErrorsOrWarnings s.memoryQueue = false →
        (Logger.flushToRedis s).prisma = s.prisma
        ∧ (Logger.flushToRedis s).redis = (RedisLogStorage.pushLogs s.redis s.memoryQueue).2)
    ∧ (s.memoryQueue ≠ [] →
        (s.isProduction = true ∨ Logger.hasErrorsOrWarnings s.memoryQueue = true) →
        Logger.flushToRedis s
          = { Logger.flushRedisToDatabase { s with isFlushing := true, memoryQueue := [], redis := (RedisLogStorage.pushLogs s.redis s.memoryQueue).2 } 50 with isFlushing := false }
        ∧ (RedisLogStorage.pushLogs s.redis s.memoryQueue).2.queueList.length
            - (Logger.flushToRedis s).redis.queueList.length ≤ 50) := by
  refine ⟨rfl, ?_, ?_⟩
  · intro hne hprod hwe
    have hguard : ¬((s.isFlushing || Queue.isEmpty s.memoryQueue) = true) := by
      simp [h, Queue.isEmpty, List.isEmpty_iff, hne]
    simp only [Logger.flushToRedis]
    rw [if_neg hguard]
    rw [if_neg (by simp [hprod, hwe, Queue.toArray] : ¬_)]
    exact ⟨rfl, rfl⟩
  · intro hne hcond
    have hguard : ¬((s.isFlushing || Queue.isEmpty s.memoryQueue) = true) := by
      simp [h, Queue.isEmpty, List.isEmpty_iff, hne]
    have hflush : Logger.flushToRedis s
        = { Logger.flushRedisToDatabase { s with isFlushing := true, memoryQueue := [], redis := (RedisLogStorage.pushLogs s.redis s.memoryQueue).2 } 50 with isFlushing := false } := by
      simp only [Logger.flushToRedis]
      rw [if_neg hguard]
      rw [if_pos (by rcases hcond with hc | hc <;> simp [hc, Queue.toArray] : _)]
      rfl
    refine ⟨hflush, ?_⟩
    rw [hflush]
    have hred := flushRedisToDatabase_redis
      { s with isFlushing := true, memoryQueue := [], redis := (RedisLogStorage.pushLogs s.redis s.memoryQueue).2 } 50
    calc (RedisLogStorage.pushLogs s.redis s.memoryQueue).2.queueList.length
          - ({ Logger.flushRedisToDatabase { s with isFlushing := true, memoryQueue := [], redis := (RedisLogStorage.pushLogs s.redis s.memoryQueue).2 } 50 with isFlushing := false }).redis.queueList.length
        = (RedisLogStorage.pushLogs s.redis s.memoryQueue).2.queueList.length
          - ((RedisLogStorage.getLogs (RedisLogStorage.pushLogs s.redis s.memoryQueue).2 50).2).queueList.length := by
          rw [hred]
      _ ≤ 50 := getLogs_trim_length_le _ _

/-- Witness for C10 at a concrete development-mode state with one Info
entry queued: the tick only pushes, leaving the sink untouched. -/
theorem c10_buffer_drain_occasions_witness :
    (Logger.flushToRedis busyLogger).prisma = busyLogger.prisma
    ∧ (Logger.flushToRedis busyLogger).redis
        = (RedisLogStorage.pushLogs busyLogger.redis busyLogger.memoryQueue).2 :=
  (c10_buffer_drain_occasions busyLogger rfl).2.1 (by decide) rfl (by decide)

theorem flushRedisToDatabase_memoryQueue (t : Logger.LoggerState) (b : Nat) :
    (Logger.flushRedisToDatabase t b).memoryQueue = t.memoryQueue := by
  simp only [Logger.flushRedisToDatabase]
  split
  · rfl
  · split <;> split <;> rfl

theorem flushToRedis_memoryQueue (s : Logger.LoggerState) (h : s.isFlushing = false) :
    (Logger.flushToRedis s).memoryQueue = [] := by
  by_cases hq : s.memoryQueue = []
  · rw [flushToRedis_of_empty s hq]
    exact hq
  · have hguard : ¬((s.isFlushing || Queue.isEmpty s.memoryQueue) = true) := by
      simp [h, Queue.isEmpty, List.isEmpty_iff, hq]
    simp only [Logger.flushToRedis]
    rw [if_neg hguard]
    split
    · rw [flushRedisToDatabase_memoryQueue]
      rfl
    · rfl

theorem flushAllLoop_memoryQueue (n : Nat) (t : Logger.LoggerState) :
    (Logger.flushAllLoop n t).memoryQueue = t.memoryQueue := by
  induction n generalizing t with
  | zero => rfl
  | succ n ih =>
    rw [Logger.flushAllLoop, ih, flushRedisToDatabase_memoryQueue]

theorem pushLogs_ok (r : RedisLogStorage.RedisState) (logs : List IExtendedLogEntry) :
    ((RedisLogStorage.pushLogs r logs).2).ok = r.ok := by
  simp only [RedisLogStorage.pushLogs]
  split
  · rw [foldl_pushOne_ok]
  · rfl

theorem flushToRedis_redis_ok (s : Logger.LoggerState) :
    ((Logger.flushToRedis s).redis).ok = s.redis.ok := by
  simp only [Logger.flushToRedis]
  split
  · rfl
  · split
    · rw [flushRedisToDatabase_redis, getLogs_ok, pushLogs_ok]
    · rw [pushLogs_ok]

theorem flushAllLoop_redis_ok (n : Nat) (t : Logger.LoggerState) :
    (Logger.flushAllLoop n t).redis.ok = t.redis.ok := by
  induction n generalizing t with
  | zero => rfl
  | succ n ih =>
    rw [Logger.flushAllLoop, ih, flushRedisToDatabase_redis, getLogs_ok]

theorem flushAllLoop_redis_length (n : Nat) (t : Logger.LoggerState)
    (hok : t.redis.ok = true) :
    (Logger.flushAllLoop n t).redis.queueList.length
      = t.redis.queueList.length - 100 * n := by
  induction n generalizing t with
  | zero => simp [Logger.flushAllLoop]
  | succ n ih =>
    rw [Logger.flushAllLoop]
    have hok2 : (Logger.flushRedisToDatabase t 100).redis.ok = true := by
      rw [flushRedisToDatabase_redis, getLogs_ok]
      exact hok
    rw [ih (Logger.flushRedisToDatabase t 100) hok2, flushRedisToDatabase_redis,
      getLogs_trim_length t.redis 100 hok (by decide)]
    omega

theorem flushAll_memoryQueue (s : Logger.LoggerState) (h : s.isFlushing = false) :
    (Logger.flushAll s).memoryQueue = [] := by
  simp only [Logger.flushAll]
  rw [flushAllLoop_memoryQueue]
  exact flushToRedis_memoryQueue s h

theorem flushAll_count_zero (s : Logger.LoggerState) :
    RedisLogStorage.getLogCount (Logger.flushAll s).redis = 0 := by
  by_cases hok : s.redis.ok = true
  · have hok2 : (Logger.flushToRedis s).redis.ok = true := by
      rw [flushToRedis_redis_ok]
      exact hok
    have hcount : RedisLogStorage.getLogCount (Logger.flushToRedis s).redis
        = (Logger.flushToRedis s).redis.queueList.length := by
      simp only [RedisLogStorage.getLogCount]
      rw [if_pos hok2]
    simp only [Logger.flushAll]
    set n := (RedisLogStorage.getLogCount (Logger.flushToRedis s).redis + 99) / 100 with hn
    have hok3 := flushAllLoop_redis_ok n (Logger.flushToRedis s)
    rw [hok2] at hok3
    have hlen := flushAllLoop_redis_length n (Logger.flushToRedis s) hok2
    simp only [RedisLogStorage.getLogCount]
    rw [if_pos hok3, hlen, hn, hcount]
    omega
  · have hokf : s.redis.ok = false := by simpa using hok
    have hokf2 : (Logger.flushAll s).redis.ok = false := by
      simp only [Logger.flushAll]
      rw [flushAllLoop_redis_ok, flushToRedis_redis_ok]
      exact hokf
    simp only [RedisLogStorage.getLogCount]
    rw [if_neg (by simp [hokf2])]

theorem flushAll_fix (t : Logger.LoggerState) (hq : t.memoryQueue = [])
    (hc : RedisLogStorage.getLogCount t.redis = 0) : Logger.flushAll t = t := by
  simp only [Logger.flushAll]
  rw [flushToRedis_of_empty t hq, hc]
  have h99 : (0 + 99) / 100 = 0 := by norm_num
  rw [h99]
  rfl

/-- C5: `flushAll` is idempotent: after one `flushAll` completes from a
quiescent state (no flush in flight, no interleaving log calls), the Entry
Queue is empty and the Intermediate Buffer reports a count of zero, and a
second `flushAll` is the identity on the whole state — in particular it
performs zero pushes to the Intermediate Buffer and zero batched inserts
into the Relational Sink (the ghost counters of both do not move). -/
theorem c5_flushAll_idempotent (s : Logger.LoggerState) (h : s.isFlushing = false) :
    Logger.flushAll (Logger.flushAll s) = Logger.flushAll s
    ∧ (Logger.flushAll s).memoryQueue = []
    ∧ RedisLogStorage.getLogCount (Logger.flushAll s).redis = 0
    ∧ (Logger.flushAll (Logger.flushAll s)).redis.pushCalls
        = (Logger.flushAll s).redis.pushCalls
    ∧ (Logger.flushAll (Logger.flushAll s)).prisma.insertCalls
        = (Logger.flushAll s).prisma.insertCalls := by
  have h1 := flushAll_memoryQueue s h
  have h2 := flushAll_count_zero s
  have h3 := flushAll_fix (Logger.flushAll s) h1 h2
  exact ⟨h3, h1, h2, by rw [h3], by rw [h3]⟩

/-- Witness for C5 at a concrete quiescent state with one queued entry. -/
theorem c5_flushAll_idempotent_witness :
    Logger.flushAll (Logger.flushAll busyLogger) = Logger.flushAll busyLogger :=
  (c5_flushAll_idempotent busyLogger rfl).1
